import Mathlib

/-!
Shallow embedding of the transit telemetry platform (backend core):
the MBTA client retry loop, the collector cycle over the vehicle /
telemetry-event store, the delay calculator, the alert detector and the
headway analyzer.  Timestamps are modelled as integer seconds; minute
values are rationals, as the code divides seconds by 60.
-/

namespace Transit

/-- Row of the vehicles table (current vehicle state), from
database.py, class Vehicle.  The surrogate autoincrement id is omitted;
rows are keyed by vehicle_id (unique). -/
structure VehicleRow where
  vehicle_id : String
  route_id : Option String
  route_name : Option String
  latitude : Option ℚ
  longitude : Option ℚ
  bearing : Option ℤ
  speed : Option ℚ
  current_status : Option String
  last_updated : ℤ
deriving Repr, DecidableEq

/-- Row of the telemetry_events table (append-only history), from
database.py, class TelemetryEvent. -/
structure EventRow where
  vehicle_id : String
  route_id : Option String
  latitude : Option ℚ
  longitude : Option ℚ
  speed : Option ℚ
  current_status : Option String
  timestamp : ℤ
deriving Repr, DecidableEq

/-- Row of the route_delays table, from database.py, class RouteDelay. -/
structure RouteDelayRow where
  route_id : String
  route_name : Option String
  hour_of_day : ℤ
  avg_delay_minutes : ℚ
  sample_count : ℕ
  calculated_at : ℤ
deriving Repr, DecidableEq

/-- Attributes of a route resource in the upstream response
(mbta_client.py, parse_vehicle_data, included handling). -/
structure RouteAttrs where
  long_name : Option String
  short_name : Option String
deriving Repr, DecidableEq

/-- Element of the optional included array of the upstream response. -/
structure IncludedItem where
  type : String
  id : String
  attributes : RouteAttrs
deriving Repr, DecidableEq

/-- Attributes of a vehicle resource in the upstream response. -/
structure VehicleAttrs where
  latitude : Option ℚ
  longitude : Option ℚ
  bearing : Option ℤ
  speed : Option ℚ
  current_status : Option String
  updated_at : Option String
deriving Repr, DecidableEq

/-- Element of the data array of the upstream response; route is the id
of the related route when the relationships entry is present. -/
structure VehicleItem where
  id : String
  attributes : VehicleAttrs
  route : Option String
deriving Repr, DecidableEq

/-- Upstream JSON response: data key optional (a response lacking data
parses to an empty list), included optional. -/
structure ApiResponse where
  data : Option (List VehicleItem)
  included : Option (List IncludedItem)
deriving Repr, DecidableEq

/-- Parsed vehicle dictionary built by parse_vehicle_data. -/
structure VehicleSnapshot where
  vehicle_id : String
  route_id : Option String
  route_name : Option String
  latitude : Option ℚ
  longitude : Option ℚ
  bearing : Option ℤ
  speed : Option ℚ
  current_status : Option String
  updated_at : Option String
deriving Repr, DecidableEq

/-- Route display name resolution, mbta_client.py line 107: the long
name if present and nonempty (Python truthiness), else the short name,
defaulting to the route id when the short_name key is absent. -/
def includedRouteName (attrs : RouteAttrs) (rid : String) : String :=
  match attrs.long_name with
  | some s => if s = "" then attrs.short_name.getD rid else s
  | none => attrs.short_name.getD rid

/-- The included_routes lookup built from the included array
(mbta_client.py lines 104-107); only items of type route contribute.
Later duplicates overwrite earlier ones as in a Python dict, hence the
reversed find. -/
def includedRoutes (resp : ApiResponse) : List (String × String) :=
  match resp.included with
  | none => []
  | some items =>
      (items.filter (fun it => it.type = "route")).map
        (fun it => (it.id, includedRouteName it.attributes it.id))

/-- Dictionary lookup included_routes.get(route_id, route_id). -/
def lookupRouteName (routes : List (String × String)) (rid : String) : String :=
  match (routes.reverse.find? (fun p => p.1 = rid)) with
  | some p => p.2
  | none => rid

/-- parse_vehicle_data, mbta_client.py lines 90-132: a response without
a data key parses to the empty list; each vehicle item becomes one
snapshot, with route id and name resolved through the included routes. -/
def parse_vehicle_data (resp : ApiResponse) : List VehicleSnapshot :=
  match resp.data with
  | none => []
  | some items =>
      let routes := includedRoutes resp
      items.map (fun it =>
        { vehicle_id := it.id
          route_id := it.route
          route_name := it.route.map (lookupRouteName routes)
          latitude := it.attributes.latitude
          longitude := it.attributes.longitude
          bearing := it.attributes.bearing
          speed := it.attributes.speed
          current_status := it.attributes.current_status
          updated_at := it.attributes.updated_at })

/-- Outcome of one HTTP attempt in get_vehicles: a successful JSON
response, an HTTP error status (4xx or 5xx, including 429), a timeout,
or any other transient error. -/
inductive AttemptOutcome where
  | success (resp : ApiResponse)
  | httpError (status : ℕ)
  | timeout
  | otherError
deriving Repr, DecidableEq

/-- Result of get_vehicles: the optional response, the backoff waits
performed in seconds, the number of attempts made, and whether an
exception escaped the client (the code catches every exception, so this
is always false). -/
structure FetchResult where
  response : Option ApiResponse
  waits : List ℕ
  attempts : ℕ
  raised : Bool
deriving Repr, DecidableEq

/-- Retry loop of MBTAClient.get_vehicles, mbta_client.py lines 43-88,
driven by the outcome of each successive attempt.  On 429 it waits
5 * 2 ^ attempt and consumes a retry slot; on a 5xx with retries left it
waits 2 * 2 ^ attempt; on other HTTP errors it returns None; on timeout
with retries left it waits 2 * 2 ^ attempt; on other errors with
retries left it waits 2 ^ attempt; when the loop exhausts retries it
returns None. -/
def mbtaLoop (retries : ℕ) : ℕ → List AttemptOutcome → FetchResult
  | _, [] => ⟨none, [], 0, false⟩
  | attempt, o :: rest =>
      if attempt < retries then
        match o with
        | .success r => ⟨some r, [], 1, false⟩
        | .httpError s =>
            if s = 429 then
              let k := mbtaLoop retries (attempt + 1) rest
              ⟨k.response, 5 * 2 ^ attempt :: k.waits, k.attempts + 1, k.raised⟩
            else if 500 ≤ s ∧ attempt < retries - 1 then
              let k := mbtaLoop retries (attempt + 1) rest
              ⟨k.response, 2 * 2 ^ attempt :: k.waits, k.attempts + 1, k.raised⟩
            else ⟨none, [], 1, false⟩
        | .timeout =>
            if attempt < retries - 1 then
              let k := mbtaLoop retries (attempt + 1) rest
              ⟨k.response, 2 * 2 ^ attempt :: k.waits, k.attempts + 1, k.raised⟩
            else ⟨none, [], 1, false⟩
        | .otherError =>
            if attempt < retries - 1 then
              let k := mbtaLoop retries (attempt + 1) rest
              ⟨k.response, 2 ^ attempt :: k.waits, k.attempts + 1, k.raised⟩
            else ⟨none, [], 1, false⟩
      else ⟨none, [], 0, false⟩

/-- MBTAClient.get_vehicles with its default of 3 total attempts,
started at attempt 0. -/
def get_vehicles (retries : ℕ) (outcomes : List AttemptOutcome) : FetchResult :=
  mbtaLoop retries 0 outcomes

/-- The relational store the collector writes to: the vehicles table
and the telemetry_events table. -/
structure Store where
  vehicles : List VehicleRow
  events : List EventRow
deriving Repr, DecidableEq

/-- Membership test mirroring the existing_vehicle_ids dictionary
lookup of collector.py line 52 and 62. -/
def existsVehicle (store : Store) (vid : String) : Bool :=
  store.vehicles.any (fun v => v.vehicle_id = vid)

/-- New Vehicle row built from a snapshot, collector.py lines 76-86. -/
def snapToRow (s : VehicleSnapshot) (t : ℤ) : VehicleRow :=
  { vehicle_id := s.vehicle_id
    route_id := s.route_id
    route_name := s.route_name
    latitude := s.latitude
    longitude := s.longitude
    bearing := s.bearing
    speed := s.speed
    current_status := s.current_status
    last_updated := t }

/-- In-place update of an existing Vehicle row from a snapshot,
collector.py lines 64-72: every data field is overwritten and
last_updated is set to the collection timestamp. -/
def updateRow (v : VehicleRow) (s : VehicleSnapshot) (t : ℤ) : VehicleRow :=
  { v with
    route_id := s.route_id
    route_name := s.route_name
    latitude := s.latitude
    longitude := s.longitude
    bearing := s.bearing
    speed := s.speed
    current_status := s.current_status
    last_updated := t }

/-- TelemetryEvent staged for a snapshot, collector.py lines 90-98. -/
def snapToEvent (s : VehicleSnapshot) (t : ℤ) : EventRow :=
  { vehicle_id := s.vehicle_id
    route_id := s.route_id
    latitude := s.latitude
    longitude := s.longitude
    speed := s.speed
    current_status := s.current_status
    timestamp := t }

/-- Rows staged for bulk insert: snapshots whose vehicle id is not in
the pre-cycle lookup (collector.py lines 74-87). -/
def stagedInserts (store : Store) (snaps : List VehicleSnapshot) (t : ℤ) : List VehicleRow :=
  (snaps.filter (fun s => ¬ existsVehicle store s.vehicle_id)).map (fun s => snapToRow s t)

/-- Effect of the cycle on one pre-existing row: the in-place update
from the last snapshot of the cycle carrying its vehicle id (the
dictionary lookup mutates one object per id), or no change when no
snapshot carries it. -/
def applyCycleSnaps (snaps : List VehicleSnapshot) (t : ℤ) (v : VehicleRow) : VehicleRow :=
  match (snaps.filter (fun s => s.vehicle_id = v.vehicle_id)).getLast? with
  | some s => updateRow v s t
  | none => v

/-- The vehicles table as staged at commit time: existing rows receive
their in-place updates and the new rows are appended by the bulk
insert. -/
def stagedVehicles (store : Store) (snaps : List VehicleSnapshot) (t : ℤ) : List VehicleRow :=
  store.vehicles.map (applyCycleSnaps snaps t) ++ stagedInserts store snaps t

/-- Telemetry events staged for the cycle: one per snapshot,
collector.py lines 89-98. -/
def stagedEvents (snaps : List VehicleSnapshot) (t : ℤ) : List EventRow :=
  snaps.map (fun s => snapToEvent s t)

/-- The unique constraint on vehicles.vehicle_id (database.py line 16)
viewed at commit: the bulk insert succeeds only if the inserted ids are
pairwise distinct and distinct from every existing id. -/
def insertConstraintOk (store : Store) (snaps : List VehicleSnapshot) : Prop :=
  (((snaps.filter (fun s => ¬ existsVehicle store s.vehicle_id)).map
      (fun s => s.vehicle_id)).Nodup)
  ∧ ∀ s ∈ snaps.filter (fun s => ¬ existsVehicle store s.vehicle_id),
      ¬ existsVehicle store s.vehicle_id

instance (store : Store) (snaps : List VehicleSnapshot) :
    Decidable (insertConstraintOk store snaps) := by
  unfold insertConstraintOk
  infer_instance

/-- Outcome of one collection cycle: the resulting store, whether an
exception escaped to the scheduler (never: collector.py catches all),
and whether a storage error was logged. -/
structure CycleResult where
  store : Store
  raised : Bool
  loggedError : Bool
deriving Repr, DecidableEq

/-- Storage phase of TelemetryCollector.collect_telemetry, collector.py
lines 47-115: stage updates, inserts and events, then commit; if the
commit fails (storage error, or the unique constraint rejected the bulk
insert) the session is rolled back to the pre-cycle store, the error is
logged, and nothing is raised. -/
def storeCycle (store : Store) (snaps : List VehicleSnapshot) (t : ℤ) (commitOk : Bool) :
    CycleResult :=
  if commitOk ∧ insertConstraintOk store snaps then
    ⟨⟨stagedVehicles store snaps t, store.events ++ stagedEvents snaps t⟩, false, false⟩
  else
    ⟨store, false, true⟩

/-- TelemetryCollector.collect_telemetry, collector.py lines 25-118:
a failed fetch or an empty parse is a no-op cycle that never opens the
storage session; otherwise the storage phase runs; every error path is
caught and logged, never raised. -/
def collect_telemetry (store : Store) (fetched : Option ApiResponse) (t : ℤ)
    (commitOk : Bool) : CycleResult :=
  match fetched with
  | none => ⟨store, false, false⟩
  | some resp =>
      let snaps := parse_vehicle_data resp
      if snaps = [] then ⟨store, false, false⟩
      else storeCycle store snaps t commitOk

/-- Bunching alert dictionary, alert_detector.py lines 49-57.  The
timestamp field is the emission time. -/
structure BunchAlert where
  type : String
  route_id : String
  vehicle_1 : String
  vehicle_2 : String
  time_between_seconds : ℤ
  severity : String
  timestamp : ℤ
deriving Repr, DecidableEq

/-- Query of AlertDetector.detect_bunching, alert_detector.py lines
31-37: vehicles of the route updated within the trailing 5 minutes with
non-null latitude and longitude, ordered by last_updated. -/
def bunchQuery (vehicles : List VehicleRow) (r : String) (now : ℤ) : List VehicleRow :=
  List.insertionSort (fun a b => a.last_updated ≤ b.last_updated)
    (vehicles.filter (fun v =>
      v.route_id = some r ∧ now - 5 * 60 ≤ v.last_updated
      ∧ v.latitude ≠ none ∧ v.longitude ≠ none))

/-- Python truthiness of an optional float coordinate: None and 0.0 are
falsy (alert_detector.py line 45). -/
def truthyCoord : Option ℚ → Bool
  | none => false
  | some x => x ≠ 0

/-- Emission condition for an adjacent pair, alert_detector.py lines
45-48: all four coordinates truthy and the update gap strictly between
0 and the 180-second bunching threshold. -/
def bunchCond (v1 v2 : VehicleRow) : Bool :=
  truthyCoord v1.latitude && truthyCoord v2.latitude
  && truthyCoord v1.longitude && truthyCoord v2.longitude
  && decide (0 < v2.last_updated - v1.last_updated)
  && decide (v2.last_updated - v1.last_updated < 180)

/-- Alert built for an adjacent pair, alert_detector.py lines 49-57. -/
def mkBunchAlert (r : String) (now : ℤ) (v1 v2 : VehicleRow) : BunchAlert :=
  { type := "bunching"
    route_id := r
    vehicle_1 := v1.vehicle_id
    vehicle_2 := v2.vehicle_id
    time_between_seconds := v2.last_updated - v1.last_updated
    severity := "warning"
    timestamp := now }

/-- AlertDetector.detect_bunching, alert_detector.py lines 21-59:
scan consecutive vehicles of the ordered query and emit one alert per
qualifying adjacent pair. -/
def detect_bunching (vehicles : List VehicleRow) (r : String) (now : ℤ) : List BunchAlert :=
  ((bunchQuery vehicles r now).zip (bunchQuery vehicles r now).tail).filterMap (fun p =>
    if bunchCond p.1 p.2 then some (mkBunchAlert r now p.1 p.2) else none)

/-- The static SCHEDULED_HEADWAYS table of delay_calculator.py lines
11-19, in minutes. -/
def SCHEDULED_HEADWAYS : List (String × ℚ) :=
  [("Red", 6), ("Orange", 6), ("Green", 5), ("Blue", 7), ("1", 10), ("39", 8)]

/-- SCHEDULED_HEADWAYS.get(route_id, 10), delay_calculator.py line 56. -/
def scheduledHeadwayFor (r : String) : ℚ :=
  ((SCHEDULED_HEADWAYS.find? (fun p => p.1 = r)).map (fun p => p.2)).getD 10

/-- Hour of day of a timestamp in integer seconds, matching the .hour
attribute of a UTC datetime (delay_calculator.py line 61). -/
def hourOf (t : ℤ) : ℤ :=
  (t / 3600) % 24

/-- Query of calculate_route_delays, delay_calculator.py lines 40-43:
events of the route with timestamp at or after the cutoff, ordered by
timestamp. -/
def queryRouteEvents (events : List EventRow) (r : String) (cutoff : ℤ) : List EventRow :=
  List.insertionSort (fun a b => a.timestamp ≤ b.timestamp)
    (events.filter (fun e => e.route_id = some r ∧ cutoff ≤ e.timestamp))

/-- Worker for first-occurrence deduplication, carrying the set of
elements already emitted. -/
def firstDedupAux {α : Type} [DecidableEq α] : List α → List α → List α
  | _, [] => []
  | seen, a :: rest =>
      if a ∈ seen then firstDedupAux seen rest
      else a :: firstDedupAux (a :: seen) rest

/-- First-occurrence deduplication, modelling the insertion order of a
Python dict built while walking a stream. -/
def firstDedup {α : Type} [DecidableEq α] (l : List α) : List α :=
  firstDedupAux [] l

/-- Hours of day present in the event stream, in first-appearance order
(the keys of vehicles_by_hour, delay_calculator.py lines 59-69). -/
def hoursOf (evs : List EventRow) : List ℤ :=
  firstDedup (evs.map (fun e => hourOf e.timestamp))

/-- Vehicles seen during one hour of day, in first-appearance order
(the keys of vehicles_by_hour[hour]). -/
def vehiclesInHour (evs : List EventRow) (h : ℤ) : List String :=
  firstDedup ((evs.filter (fun e => hourOf e.timestamp = h)).map (fun e => e.vehicle_id))

/-- Events of one vehicle within one hour of day, in stream order
(vehicles_by_hour[hour][vehicle_id]). -/
def vehicleHourEvents (evs : List EventRow) (h : ℤ) (vid : String) : List EventRow :=
  evs.filter (fun e => hourOf e.timestamp = h ∧ e.vehicle_id = vid)

/-- Consecutive inter-arrival gaps in minutes, delay_calculator.py
lines 80-81: total seconds divided by 60. -/
def gapsMinutes (l : List EventRow) : List ℚ :=
  (l.zip l.tail).map (fun p => ((p.2.timestamp - p.1.timestamp : ℤ) : ℚ) / 60)

/-- Per-gap delay samples of one hour of day, delay_calculator.py lines
72-84: vehicles with fewer than 2 events contribute nothing; each
consecutive gap contributes gap minus the scheduled headway. -/
def hourDelays (evs : List EventRow) (h : ℤ) (sched : ℚ) : List ℚ :=
  (vehiclesInHour evs h).flatMap (fun vid =>
    let ve := vehicleHourEvents evs h vid
    if ve.length < 2 then []
    else (gapsMinutes ve).map (fun g => g - sched))

/-- Update-or-create of one RouteDelay row, delay_calculator.py lines
90-107: the first row matching route and hour is updated in place
(route_name untouched), otherwise a fresh row is appended. -/
def upsertRouteDelay (r : String) (h : ℤ) (avg : ℚ) (n : ℕ) (rname : Option String)
    (now : ℤ) : List RouteDelayRow → List RouteDelayRow
  | [] => [⟨r, rname, h, avg, n, now⟩]
  | row :: rest =>
      if row.route_id = r ∧ row.hour_of_day = h then
        { row with avg_delay_minutes := avg, sample_count := n, calculated_at := now } :: rest
      else row :: upsertRouteDelay r h avg n rname now rest

/-- Result of DelayCalculator.calculate_route_delays: the route_delays
table after the call and whether the error was re-raised. -/
structure CalcResult where
  table : List RouteDelayRow
  raised : Bool
deriving Repr, DecidableEq

/-- Body of the per-hour loop of calculate_route_delays, lines 72-107:
hours without qualifying samples produce no row, other hours upsert one
row carrying the average of their per-gap delays. -/
def delayFoldStep (evs : List EventRow) (sched : ℚ) (r : String) (rname : Option String)
    (now : ℤ) (tbl : List RouteDelayRow) (h : ℤ) : List RouteDelayRow :=
  let delays := hourDelays evs h sched
  if delays = [] then tbl
  else upsertRouteDelay r h (delays.sum / delays.length) delays.length rname now tbl

/-- DelayCalculator.calculate_route_delays, delay_calculator.py lines
28-115: query the window, return early when empty, group by hour of day
and vehicle, average the per-gap delays of each hour with at least one
sample into one upserted row, then commit; on a storage error the whole
call is rolled back and the exception re-raised. -/
def calculate_route_delays (events : List EventRow) (table : List RouteDelayRow)
    (r : String) (hoursBack : ℤ) (now : ℤ) (commitOk : Bool) : CalcResult :=
  let cutoff := now - hoursBack * 3600
  match queryRouteEvents events r cutoff with
  | [] => ⟨table, false⟩
  | e0 :: rest =>
      let evs := e0 :: rest
      let newTable := (hoursOf evs).foldl
        (delayFoldStep evs (scheduledHeadwayFor r) r e0.route_id now) table
      if commitOk then ⟨newTable, false⟩ else ⟨table, true⟩

/-- Rows of the route_delays table carrying a given route and hour. -/
def rdRowsFor (table : List RouteDelayRow) (r : String) (h : ℤ) : List RouteDelayRow :=
  table.filter (fun row => row.route_id = r ∧ row.hour_of_day = h)

/-- Walker state of get_headway_analysis, main.py lines 220-224:
the route and vehicle of the current run, the last seen timestamp, the
headways accumulated per route key (a Python dict in insertion order),
and whether the walk crashed on a missing dictionary key. -/
structure HWState where
  curRoute : Option String
  curVehicle : Option String
  lastTs : Option ℤ
  acc : List (Option String × List ℚ)
  crashed : Bool
deriving Repr, DecidableEq

/-- Key membership in the headways_by_route dict. -/
def accHasKey (acc : List (Option String × List ℚ)) (k : Option String) : Bool :=
  acc.any (fun p => p.1 = k)

/-- Append one headway to the list stored under a key of the
headways_by_route dict. -/
def accAppend (acc : List (Option String × List ℚ)) (k : Option String) (x : ℚ) :
    List (Option String × List ℚ) :=
  acc.map (fun p => if p.1 = k then (p.1, p.2 ++ [x]) else p)

/-- One iteration of the event loop of get_headway_analysis, main.py
lines 226-242: a route change resets the run and creates the dict key
if absent; an event of a different vehicle than the current run only
seeds the timestamp; an event of the same vehicle appends the gap in
minutes to the list under the current route key (a missing key, which
occurs when the walk starts on events with a null route, raises a
KeyError, modelled by the crashed flag). -/
def hwStep (s : HWState) (e : EventRow) : HWState :=
  if s.crashed then s
  else
    let s1 :=
      if e.route_id ≠ s.curRoute then
        { s with
          curRoute := e.route_id
          curVehicle := none
          lastTs := none
          acc := if accHasKey s.acc e.route_id then s.acc else s.acc ++ [(e.route_id, [])] }
      else s
    if some e.vehicle_id ≠ s1.curVehicle then
      { s1 with curVehicle := some e.vehicle_id, lastTs := some e.timestamp }
    else
      match s1.lastTs with
      | some t =>
          if accHasKey s1.acc s1.curRoute then
            { s1 with
              acc := accAppend s1.acc s1.curRoute (((e.timestamp - t : ℤ) : ℚ) / 60)
              lastTs := some e.timestamp }
          else { s1 with crashed := true }
      | none => s1

/-- Full walk of get_headway_analysis over the ordered event stream. -/
def hwWalk (events : List EventRow) : HWState :=
  events.foldl hwStep ⟨none, none, none, [], false⟩

/-- Emitted headways per route of get_headway_analysis, main.py lines
208-243: none when the walk raised a KeyError, otherwise the
headways_by_route dict as an ordered association list. -/
def analyzeHeadways (events : List EventRow) : Option (List (Option String × List ℚ)) :=
  let s := hwWalk events
  if s.crashed then none else some s.acc

/-- Adjacent-pair headways of an event stream: the gap in minutes for
each event whose vehicle equals the vehicle of the immediately
preceding event. -/
def consecGaps (events : List EventRow) : List ℚ :=
  (events.zip events.tail).filterMap (fun p =>
    if p.2.vehicle_id = p.1.vehicle_id
    then some (((p.2.timestamp - p.1.timestamp : ℤ) : ℚ) / 60)
    else none)

/-- Concrete snapshot used to instantiate universally quantified
results below. -/
def cSnap : VehicleSnapshot :=
  ⟨"1877", some "Red", some "Red Line", some 42, some (-71), some 85, some 12,
    some "STOPPED_AT", none⟩

/-- Concrete upstream response parsing to exactly one snapshot. -/
def cResp : ApiResponse :=
  ⟨some [⟨"1877", ⟨some 42, some (-71), some 85, some 12, some "STOPPED_AT",
      some "2026-01-01T00:00:00Z"⟩, some "Red"⟩],
    some [⟨"route", "Red", ⟨some "Red Line", some "RL"⟩⟩]⟩

/-!  Theorems. -/

/-- C5: for every input stream beginning with three consecutive HTTP
429 responses, get_vehicles with its default of 3 attempts makes
exactly 3 attempts, waits 5, 10 and 20 seconds (5 * 2 ^ attempt), then
returns a failure result and no exception escapes the client. -/
theorem get_vehicles_three_429_backoff (rest : List AttemptOutcome) :
    get_vehicles 3 (.httpError 429 :: .httpError 429 :: .httpError 429 :: rest)
      = ⟨none, [5, 10, 20], 3, false⟩ := by
  cases rest with
  | nil => rfl
  | cons o rest => rfl

/-- C6 counterexample: the first attempt failing with a timeout makes
the client wait 2 seconds, not 2 ^ 0 = 1 second as the claim states. -/
theorem timeout_backoff_counterexample :
    (get_vehicles 3 [.timeout, .success ⟨none, none⟩]).waits = [2]
    ∧ (2 : ℕ) ≠ 2 ^ 0 := by
  constructor
  · rfl
  · decide

/-- C6 amended: while retries remain, an attempt failing with a timeout
waits 2 * 2 ^ attempt seconds before the next attempt, and an attempt
failing with another transient non-HTTP error waits 2 ^ attempt
seconds. -/
theorem transient_backoff_waits (retries attempt : ℕ) (rest : List AttemptOutcome)
    (h : attempt + 1 < retries) :
    (mbtaLoop retries attempt (.timeout :: rest)).waits
        = 2 * 2 ^ attempt :: (mbtaLoop retries (attempt + 1) rest).waits
    ∧ (mbtaLoop retries attempt (.otherError :: rest)).waits
        = 2 ^ attempt :: (mbtaLoop retries (attempt + 1) rest).waits := by
  have h1 : attempt < retries := Nat.lt_of_succ_lt h
  have h2 : attempt < retries - 1 := by omega
  constructor <;> simp [mbtaLoop, h1, h2]

/-- Witness for the amended C6 statement at retries 3, attempt 0. -/
theorem transient_backoff_waits_witness :
    (mbtaLoop 3 0 [.timeout]).waits = 2 * 2 ^ 0 :: (mbtaLoop 3 1 []).waits
    ∧ (mbtaLoop 3 0 [.otherError]).waits = 2 ^ 0 :: (mbtaLoop 3 1 []).waits :=
  transient_backoff_waits 3 0 [] (by decide)

lemma existsVehicle_iff (store : Store) (vid : String) :
    existsVehicle store vid = true ↔ vid ∈ store.vehicles.map (fun v => v.vehicle_id) := by
  unfold existsVehicle
  rw [List.any_eq_true]
  constructor
  · rintro ⟨v, hv, hvid⟩
    exact List.mem_map.mpr ⟨v, hv, by simpa using hvid⟩
  · intro h
    obtain ⟨v, hv, hvid⟩ := List.mem_map.mp h
    exact ⟨v, hv, by simpa using hvid⟩

lemma stagedInserts_ids (store : Store) (snaps : List VehicleSnapshot) (t : ℤ) :
    (stagedInserts store snaps t).map (fun v => v.vehicle_id)
      = (snaps.filter (fun s => ¬ existsVehicle store s.vehicle_id)).map
          (fun s => s.vehicle_id) := by
  simp only [stagedInserts, List.map_map]
  rfl

lemma stagedVehicles_ids (store : Store) (snaps : List VehicleSnapshot) (t : ℤ) :
    (stagedVehicles store snaps t).map (fun v => v.vehicle_id)
      = store.vehicles.map (fun v => v.vehicle_id)
        ++ (stagedInserts store snaps t).map (fun v => v.vehicle_id) := by
  unfold stagedVehicles
  rw [List.map_append]
  congr 1
  rw [List.map_map]
  apply List.map_congr_left
  intro v hv
  show (applyCycleSnaps snaps t v).vehicle_id = v.vehicle_id
  unfold applyCycleSnaps
  cases (snaps.filter (fun s => s.vehicle_id = v.vehicle_id)).getLast? <;> rfl

lemma storeCycle_commit (store : Store) (snaps : List VehicleSnapshot) (t : ℤ) (ok : Bool)
    (h : ok = true ∧ insertConstraintOk store snaps) :
    storeCycle store snaps t ok
      = ⟨⟨stagedVehicles store snaps t, store.events ++ stagedEvents snaps t⟩,
          false, false⟩ := by
  unfold storeCycle
  rw [if_pos]
  exact ⟨h.1, h.2⟩

lemma storeCycle_rollback (store : Store) (snaps : List VehicleSnapshot) (t : ℤ) (ok : Bool)
    (h : ¬ (ok = true ∧ insertConstraintOk store snaps)) :
    storeCycle store snaps t ok = ⟨store, false, true⟩ := by
  unfold storeCycle
  rw [if_neg]
  intro hc
  exact h ⟨hc.1, hc.2⟩

lemma storeCycle_raised (store : Store) (snaps : List VehicleSnapshot) (t : ℤ) (ok : Bool) :
    (storeCycle store snaps t ok).raised = false := by
  unfold storeCycle
  split <;> rfl

lemma storeCycle_nodup (store : Store) (snaps : List VehicleSnapshot) (t : ℤ) (ok : Bool)
    (h : (store.vehicles.map (fun v => v.vehicle_id)).Nodup) :
    ((storeCycle store snaps t ok).store.vehicles.map (fun v => v.vehicle_id)).Nodup := by
  unfold storeCycle
  split
  case isTrue hc =>
    obtain ⟨-, hnd, hall⟩ := hc
    show ((stagedVehicles store snaps t).map (fun v => v.vehicle_id)).Nodup
    rw [stagedVehicles_ids, List.nodup_append]
    refine ⟨h, ?_, ?_⟩
    · rw [stagedInserts_ids]
      exact hnd
    · intro vid hvid hvid2
      rw [stagedInserts_ids] at hvid2
      obtain ⟨s, hs, rfl⟩ := List.mem_map.mp hvid2
      exact (hall s hs) ((existsVehicle_iff store s.vehicle_id).mpr hvid)
  case isFalse => exact h

lemma storeCycle_absent_mem (store : Store) (snaps : List VehicleSnapshot) (t : ℤ)
    (ok : Bool) (v : VehicleRow) (hv : v ∈ store.vehicles)
    (habs : v.vehicle_id ∉ snaps.map (fun s => s.vehicle_id)) :
    v ∈ (storeCycle store snaps t ok).store.vehicles := by
  unfold storeCycle
  split
  case isTrue =>
    show v ∈ stagedVehicles store snaps t
    have hfilter : snaps.filter (fun s => s.vehicle_id = v.vehicle_id) = [] := by
      rw [List.filter_eq_nil_iff]
      intro s hs
      simp only [decide_eq_true_eq]
      intro heq
      exact habs (List.mem_map.mpr ⟨s, hs, heq⟩)
    refine List.mem_append_left _ (List.mem_map.mpr ⟨v, hv, ?_⟩)
    unfold applyCycleSnaps
    rw [hfilter]
    rfl
  case isFalse => exact hv

lemma insertConstraintOk_single (store : Store) (s : VehicleSnapshot) :
    insertConstraintOk store [s] := by
  constructor
  · by_cases h : existsVehicle store s.vehicle_id = true <;>
      simp [List.filter, h]
  · intro x hx
    rw [List.mem_filter] at hx
    simpa using hx.2

lemma filter_id_eq_single {l : List VehicleRow} {vid : String}
    (hnd : (l.map (fun v => v.vehicle_id)).Nodup) {w : VehicleRow}
    (hw : w ∈ l) (hid : w.vehicle_id = vid) :
    l.filter (fun v => v.vehicle_id = vid) = [w] := by
  induction l with
  | nil => cases hw
  | cons a l ih =>
      rw [List.map_cons, List.nodup_cons] at hnd
      obtain ⟨ha, hnd2⟩ := hnd
      rcases List.mem_cons.mp hw with rfl | hw2
      · rw [List.filter_cons, if_pos (by simpa using hid)]
        congr 1
        rw [List.filter_eq_nil_iff]
        intro b hb
        simp only [decide_eq_true_eq]
        intro hbv
        apply ha
        have hbmem : b.vehicle_id ∈ List.map (fun v => v.vehicle_id) l :=
          List.mem_map.mpr ⟨b, hb, rfl⟩
        rw [hbv] at hbmem
        rw [hid]
        exact hbmem
      · have hne : ¬ (a.vehicle_id = vid) := by
          intro hEq
          apply ha
          have hwm : w.vehicle_id ∈ List.map (fun v => v.vehicle_id) l :=
            List.mem_map.mpr ⟨w, hw2, rfl⟩
          rw [hid] at hwm
          rw [hEq]
          exact hwm
        rw [List.filter_cons, if_neg (by simpa using hne)]
        exact ih hnd2 hw2

lemma updateRow_eq_snapToRow (v : VehicleRow) (s : VehicleSnapshot) (t : ℤ)
    (hid : v.vehicle_id = s.vehicle_id) :
    updateRow v s t = snapToRow s t := by
  simp [updateRow, snapToRow, hid]

lemma storeCycle_single_exists (store : Store) (s : VehicleSnapshot) (t : ℤ) :
    existsVehicle (storeCycle store [s] t true).store s.vehicle_id = true := by
  rw [storeCycle_commit store [s] t true ⟨rfl, insertConstraintOk_single store s⟩]
  rw [existsVehicle_iff]
  show s.vehicle_id ∈ (stagedVehicles store [s] t).map (fun v => v.vehicle_id)
  rw [stagedVehicles_ids, stagedInserts_ids, List.mem_append]
  by_cases h : existsVehicle store s.vehicle_id = true
  · exact Or.inl ((existsVehicle_iff store s.vehicle_id).mp h)
  · refine Or.inr (List.mem_map.mpr ⟨s, ?_, rfl⟩)
    rw [List.mem_filter]
    simpa using h

lemma storeCycle_single_upsert (store : Store) (s : VehicleSnapshot) (t : ℤ)
    (hnd : (store.vehicles.map (fun v => v.vehicle_id)).Nodup)
    (hex : existsVehicle store s.vehicle_id = true) :
    (storeCycle store [s] t true).store.vehicles.filter
        (fun v => v.vehicle_id = s.vehicle_id) = [snapToRow s t] := by
  rw [storeCycle_commit store [s] t true ⟨rfl, insertConstraintOk_single store s⟩]
  show (stagedVehicles store [s] t).filter (fun v => v.vehicle_id = s.vehicle_id)
      = [snapToRow s t]
  obtain ⟨w, hw, hwid⟩ : ∃ w ∈ store.vehicles, w.vehicle_id = s.vehicle_id := by
    have := (existsVehicle_iff store s.vehicle_id).mp hex
    obtain ⟨w, hw, hwid⟩ := List.mem_map.mp this
    exact ⟨w, hw, hwid⟩
  have hmapped : updateRow w s t ∈ stagedVehicles store [s] t := by
    refine List.mem_append_left _ (List.mem_map.mpr ⟨w, hw, ?_⟩)
    unfold applyCycleSnaps
    have hfs : ([s].filter (fun x => x.vehicle_id = w.vehicle_id)) = [s] := by
      simp [List.filter, hwid.symm]
    rw [hfs]
    rfl
  have hndStaged : ((stagedVehicles store [s] t).map (fun v => v.vehicle_id)).Nodup := by
    rw [stagedVehicles_ids, stagedInserts_ids]
    have hfilter : ([s].filter (fun x => ¬ existsVehicle store x.vehicle_id)) = [] := by
      simp [List.filter, hex]
    rw [hfilter]
    simpa using hnd
  rw [filter_id_eq_single hndStaged hmapped (by simpa using hwid)]
  rw [updateRow_eq_snapToRow w s t hwid]

/-- C1: the CurrentVehicleState (vehicles) table holds at most one row
per vehicle identifier across collection cycles, a vehicle absent from
a cycle keeps its row, and running the same snapshot through the upsert
path twice leaves exactly one row for that vehicle carrying the latest
values and the second collection timestamp. -/
theorem currentVehicleState_unique_idempotent :
    (∀ (store : Store) (snaps : List VehicleSnapshot) (t : ℤ) (ok : Bool),
        (store.vehicles.map (fun v => v.vehicle_id)).Nodup →
          ((storeCycle store snaps t ok).store.vehicles.map
              (fun v => v.vehicle_id)).Nodup
          ∧ ∀ v ∈ store.vehicles, v.vehicle_id ∉ snaps.map (fun s => s.vehicle_id) →
              v ∈ (storeCycle store snaps t ok).store.vehicles)
    ∧ ∀ (store : Store) (s : VehicleSnapshot) (t₁ t₂ : ℤ),
        (store.vehicles.map (fun v => v.vehicle_id)).Nodup →
          (storeCycle (storeCycle store [s] t₁ true).store [s] t₂ true).store.vehicles.filter
              (fun v => v.vehicle_id = s.vehicle_id) = [snapToRow s t₂] := by
  constructor
  · intro store snaps t ok hnd
    exact ⟨storeCycle_nodup store snaps t ok hnd,
      fun v hv habs => storeCycle_absent_mem store snaps t ok v hv habs⟩
  · intro store s t₁ t₂ hnd
    exact storeCycle_single_upsert _ s t₂ (storeCycle_nodup store [s] t₁ true hnd)
      (storeCycle_single_exists store s t₁)

/-- Witness for C1 at a concrete empty store and snapshot. -/
theorem currentVehicleState_unique_idempotent_witness :
    (storeCycle (storeCycle ⟨[], []⟩ [cSnap] 100 true).store [cSnap] 200 true).store.vehicles.filter
        (fun v => v.vehicle_id = cSnap.vehicle_id) = [snapToRow cSnap 200] :=
  currentVehicleState_unique_idempotent.2 ⟨[], []⟩ cSnap 100 200 (by decide)

lemma collect_telemetry_raised (store : Store) (resp : Option ApiResponse) (t : ℤ)
    (ok : Bool) : (collect_telemetry store resp t ok).raised = false := by
  unfold collect_telemetry
  cases resp with
  | none => rfl
  | some r =>
      simp only
      split
      · rfl
      · exact storeCycle_raised store (parse_vehicle_data r) t ok

/-- C2: a collection cycle persists its staged inserts, in-place
updates and events atomically: when the commit succeeds the store holds
exactly the staged tables, on any storage write failure the store is
rolled back to its pre-cycle state and the failure is logged, and in
no case is an exception raised to the scheduler. -/
theorem collector_cycle_atomic :
    ∀ (store : Store) (snaps : List VehicleSnapshot) (t : ℤ) (ok : Bool),
      (storeCycle store snaps t ok).raised = false
      ∧ ((ok = true ∧ insertConstraintOk store snaps) →
          (storeCycle store snaps t ok).store
            = ⟨stagedVehicles store snaps t, store.events ++ stagedEvents snaps t⟩)
      ∧ (¬ (ok = true ∧ insertConstraintOk store snaps) →
          (storeCycle store snaps t ok).store = store
          ∧ (storeCycle store snaps t ok).loggedError = true)
      ∧ ∀ (resp : Option ApiResponse), (collect_telemetry store resp t ok).raised = false := by
  intro store snaps t ok
  refine ⟨storeCycle_raised store snaps t ok, ?_, ?_, fun resp => collect_telemetry_raised store resp t ok⟩
  · intro h
    rw [storeCycle_commit store snaps t ok h]
  · intro h
    rw [storeCycle_rollback store snaps t ok h]
    exact ⟨rfl, rfl⟩

/-- Witness for C2 at a concrete store and snapshot list, both for a
successful commit and for a storage failure. -/
theorem collector_cycle_atomic_witness :
    ((true = true ∧ insertConstraintOk ⟨[], []⟩ [cSnap]) →
      (storeCycle ⟨[], []⟩ [cSnap] 100 true).store
        = ⟨stagedVehicles ⟨[], []⟩ [cSnap] 100, ([] : List EventRow) ++ stagedEvents [cSnap] 100⟩)
    ∧ (¬ (false = true ∧ insertConstraintOk ⟨[], []⟩ [cSnap]) →
        (storeCycle ⟨[], []⟩ [cSnap] 100 false).store = ⟨[], []⟩
        ∧ (storeCycle ⟨[], []⟩ [cSnap] 100 false).loggedError = true) :=
  ⟨(collector_cycle_atomic ⟨[], []⟩ [cSnap] 100 true).2.1,
    (collector_cycle_atomic ⟨[], []⟩ [cSnap] 100 false).2.2.1⟩

/-- C3: per collection cycle the number of telemetry events appended
equals the number of snapshots parsed from the upstream response when
the commit succeeds; a failed fetch or an empty parse is a no-op cycle
that leaves the store untouched and writes nothing. -/
theorem telemetry_event_append_count :
    ∀ (store : Store) (t : ℤ) (ok : Bool),
      collect_telemetry store none t ok = ⟨store, false, false⟩
      ∧ ∀ (resp : ApiResponse),
          (parse_vehicle_data resp = [] →
              collect_telemetry store (some resp) t ok = ⟨store, false, false⟩)
          ∧ ((ok = true ∧ insertConstraintOk store (parse_vehicle_data resp)) →
              (collect_telemetry store (some resp) t ok).store.events.length
                = store.events.length + (parse_vehicle_data resp).length) := by
  intro store t ok
  constructor
  · rfl
  · intro resp
    constructor
    · intro h
      unfold collect_telemetry
      simp only [h]
      rfl
    · intro h
      unfold collect_telemetry
      simp only
      split
      case isTrue hnil =>
        simp [hnil]
      case isFalse hnil =>
        rw [storeCycle_commit store (parse_vehicle_data resp) t ok h]
        simp [stagedEvents]

/-- Witness for C3 at a concrete response parsing to one snapshot. -/
theorem telemetry_event_append_count_witness :
    (collect_telemetry ⟨[], []⟩ (some cResp) 100 true).store.events.length
      = (⟨[], []⟩ : Store).events.length + (parse_vehicle_data cResp).length :=
  ((telemetry_event_append_count ⟨[], []⟩ 100 true).2 cResp).2 (by decide)

/-- C9: a storage failure during calculate_route_delays rolls the whole
recomputation back (the route_delays table is unchanged) and re-raises
the error to the caller, while a storage failure in the collector cycle
is swallowed (nothing raised). -/
theorem delay_recompute_rollback_and_raise :
    (∀ (events : List EventRow) (table : List RouteDelayRow) (r : String)
        (hoursBack now : ℤ),
        queryRouteEvents events r (now - hoursBack * 3600) ≠ [] →
          calculate_route_delays events table r hoursBack now false = ⟨table, true⟩)
    ∧ ∀ (store : Store) (snaps : List VehicleSnapshot) (t : ℤ),
        (storeCycle store snaps t false).raised = false := by
  constructor
  · intro events table r hoursBack now hne
    unfold calculate_route_delays
    simp only
    split
    case h_1 heq => exact absurd heq hne
    case h_2 e0 rest heq => rfl
  · intro store snaps t
    exact storeCycle_raised store snaps t false

/-- Witness for C9 at a concrete nonempty event window. -/
theorem delay_recompute_rollback_and_raise_witness :
    calculate_route_delays [⟨"1877", some "Red", none, none, none, none, 0⟩] []
        "Red" 24 3000 false = ⟨[], true⟩ :=
  delay_recompute_rollback_and_raise.1 [⟨"1877", some "Red", none, none, none, none, 0⟩]
    [] "Red" 24 3000 (by decide)

lemma rdRowsFor_nil (r : String) (h : ℤ) : rdRowsFor [] r h = [] := rfl

lemma rdRowsFor_cons (row : RouteDelayRow) (tbl : List RouteDelayRow) (r : String)
    (h : ℤ) :
    rdRowsFor (row :: tbl) r h
      = if row.route_id = r ∧ row.hour_of_day = h then row :: rdRowsFor tbl r h
        else rdRowsFor tbl r h := by
  unfold rdRowsFor
  rw [List.filter_cons]
  by_cases hp : row.route_id = r ∧ row.hour_of_day = h
  · rw [if_pos hp, if_pos (by simpa using hp)]
  · rw [if_neg hp, if_neg (by simpa using hp)]

lemma upsertRouteDelay_rows_at (r : String) (h : ℤ) (avg : ℚ) (n : ℕ)
    (rname : Option String) (now : ℤ) :
    ∀ (tbl : List RouteDelayRow), (rdRowsFor tbl r h).length ≤ 1 →
      ∃ rn, rdRowsFor (upsertRouteDelay r h avg n rname now tbl) r h
        = [⟨r, rn, h, avg, n, now⟩] := by
  intro tbl
  induction tbl with
  | nil =>
      intro _
      refine ⟨rname, ?_⟩
      show rdRowsFor [⟨r, rname, h, avg, n, now⟩] r h = _
      rw [rdRowsFor_cons, if_pos ⟨rfl, rfl⟩, rdRowsFor_nil]
  | cons row rest ih =>
      intro hlen
      unfold upsertRouteDelay
      by_cases hp : row.route_id = r ∧ row.hour_of_day = h
      · rw [if_pos hp]
        refine ⟨row.route_name, ?_⟩
        rw [rdRowsFor_cons]
        rw [if_pos (by exact ⟨hp.1, hp.2⟩)]
        have hrest : rdRowsFor rest r h = [] := by
          rw [rdRowsFor_cons, if_pos hp] at hlen
          simp at hlen
          exact hlen
        rw [hrest]
        obtain ⟨hr1, hr2⟩ := hp
        rw [hr1, hr2]
      · rw [if_neg hp]
        rw [rdRowsFor_cons, if_neg hp]
        rw [rdRowsFor_cons, if_neg hp] at hlen
        exact ih hlen

lemma upsertRouteDelay_rows_other (r : String) (h : ℤ) (avg : ℚ) (n : ℕ)
    (rname : Option String) (now : ℤ) (r2 : String) (h2 : ℤ)
    (hne : r2 ≠ r ∨ h2 ≠ h) :
    ∀ (tbl : List RouteDelayRow),
      rdRowsFor (upsertRouteDelay r h avg n rname now tbl) r2 h2
        = rdRowsFor tbl r2 h2 := by
  intro tbl
  induction tbl with
  | nil =>
      show rdRowsFor [⟨r, rname, h, avg, n, now⟩] r2 h2 = rdRowsFor [] r2 h2
      rw [rdRowsFor_cons, if_neg ?_]
      rintro ⟨ha, hb⟩
      rcases hne with hne | hne
      · exact hne ha.symm
      · exact hne hb.symm
  | cons row rest ih =>
      unfold upsertRouteDelay
      by_cases hp : row.route_id = r ∧ row.hour_of_day = h
      · rw [if_pos hp]
        rw [rdRowsFor_cons, rdRowsFor_cons]
        by_cases hq : row.route_id = r2 ∧ row.hour_of_day = h2
        · exfalso
          rcases hne with hne | hne
          · exact hne (hq.1.symm.trans hp.1)
          · exact hne (hq.2.symm.trans hp.2)
        · rw [if_neg hq, if_neg hq]
      · rw [if_neg hp]
        rw [rdRowsFor_cons, rdRowsFor_cons, ih]

lemma delayFoldStep_rows_other (evs : List EventRow) (sched : ℚ) (r : String)
    (rname : Option String) (now : ℤ) (tbl : List RouteDelayRow) (h0 h : ℤ)
    (hne : h ≠ h0) :
    rdRowsFor (delayFoldStep evs sched r rname now tbl h0) r h = rdRowsFor tbl r h := by
  unfold delayFoldStep
  simp only
  split
  · rfl
  · exact upsertRouteDelay_rows_other r h0 _ _ rname now r h (Or.inr hne) tbl

lemma delayFold_rows_skip (evs : List EventRow) (sched : ℚ) (r : String)
    (rname : Option String) (now : ℤ) (h : ℤ) :
    ∀ (hs : List ℤ) (tbl : List RouteDelayRow),
      (hourDelays evs h sched = [] ∨ h ∉ hs) →
      rdRowsFor (hs.foldl (delayFoldStep evs sched r rname now) tbl) r h
        = rdRowsFor tbl r h := by
  intro hs
  induction hs with
  | nil => intro tbl _; rfl
  | cons h0 hs ih =>
      intro tbl hd
      rw [List.foldl_cons]
      have hstep : rdRowsFor (delayFoldStep evs sched r rname now tbl h0) r h
          = rdRowsFor tbl r h := by
        by_cases hhe : h = h0
        · subst hhe
          rcases hd with hd | hd
          · unfold delayFoldStep
            simp only
            rw [if_pos hd]
          · exact absurd (List.mem_cons_self h hs) hd
        · exact delayFoldStep_rows_other evs sched r rname now tbl h0 h hhe
      rw [ih _ ?_, hstep]
      rcases hd with hd | hd
      · exact Or.inl hd
      · exact Or.inr (fun hmem => hd (List.mem_cons_of_mem h0 hmem))

lemma delayFold_rows_at (evs : List EventRow) (sched : ℚ) (r : String)
    (rname : Option String) (now : ℤ) (h : ℤ) :
    ∀ (hs : List ℤ) (tbl : List RouteDelayRow),
      hs.Nodup → h ∈ hs → hourDelays evs h sched ≠ [] →
      (rdRowsFor tbl r h).length ≤ 1 →
      ∃ rn, rdRowsFor (hs.foldl (delayFoldStep evs sched r rname now) tbl) r h
        = [⟨r, rn, h, (hourDelays evs h sched).sum / (hourDelays evs h sched).length,
            (hourDelays evs h sched).length, now⟩] := by
  intro hs
  induction hs with
  | nil => intro tbl _ hmem; cases hmem
  | cons h0 hs ih =>
      intro tbl hnd hmem hne hlen
      rw [List.nodup_cons] at hnd
      rw [List.foldl_cons]
      rcases List.mem_cons.mp hmem with rfl | hmem2
      · have hstep : ∃ rn,
            rdRowsFor (delayFoldStep evs sched r rname now tbl h) r h
              = [⟨r, rn, h, (hourDelays evs h sched).sum / (hourDelays evs h sched).length,
                  (hourDelays evs h sched).length, now⟩] := by
          unfold delayFoldStep
          simp only
          rw [if_neg hne]
          exact upsertRouteDelay_rows_at r h _ _ rname now tbl hlen
        obtain ⟨rn, hrn⟩ := hstep
        refine ⟨rn, ?_⟩
        rw [delayFold_rows_skip evs sched r rname now h hs _ (Or.inr hnd.1), hrn]
      · have hne0 : h ≠ h0 := by
          intro hEq
          exact hnd.1 (hEq ▸ hmem2)
        have hstep : rdRowsFor (delayFoldStep evs sched r rname now tbl h0) r h
            = rdRowsFor tbl r h :=
          delayFoldStep_rows_other evs sched r rname now tbl h0 h hne0
        exact ih _ hnd.2 hmem2 hne (hstep ▸ hlen)

lemma mem_firstDedupAux {α : Type} [DecidableEq α] (a : α) :
    ∀ (l seen : List α), a ∈ firstDedupAux seen l ↔ (a ∈ l ∧ a ∉ seen) := by
  intro l
  induction l with
  | nil => intro seen; simp [firstDedupAux]
  | cons b l ih =>
      intro seen
      unfold firstDedupAux
      by_cases hb : b ∈ seen
      · rw [if_pos hb, ih]
        constructor
        · rintro ⟨hal, has⟩
          exact ⟨List.mem_cons_of_mem b hal, has⟩
        · rintro ⟨hal, has⟩
          rcases List.mem_cons.mp hal with rfl | hal2
          · exact absurd hb has
          · exact ⟨hal2, has⟩
      · rw [if_neg hb]
        rw [List.mem_cons, ih]
        constructor
        · rintro (rfl | ⟨hal, has⟩)
          · exact ⟨List.mem_cons_self a l, hb⟩
          · exact ⟨List.mem_cons_of_mem b hal,
              fun hs => has (List.mem_cons_of_mem b hs)⟩
        · rintro ⟨hal, has⟩
          by_cases hab : a = b
          · exact Or.inl hab
          · right
            rcases List.mem_cons.mp hal with rfl | hal2
            · exact absurd rfl hab
            · exact ⟨hal2, fun hs => (List.mem_cons.mp hs).elim hab has⟩

lemma firstDedupAux_nodup {α : Type} [DecidableEq α] :
    ∀ (l seen : List α), (firstDedupAux seen l).Nodup := by
  intro l
  induction l with
  | nil => intro seen; simp [firstDedupAux]
  | cons b l ih =>
      intro seen
      unfold firstDedupAux
      by_cases hb : b ∈ seen
      · rw [if_pos hb]; exact ih seen
      · rw [if_neg hb]
        rw [List.nodup_cons]
        exact ⟨fun hmem => ((mem_firstDedupAux b l (b :: seen)).mp hmem).2
            (List.mem_cons_self b seen), ih (b :: seen)⟩

lemma firstDedup_nodup {α : Type} [DecidableEq α] (l : List α) : (firstDedup l).Nodup :=
  firstDedupAux_nodup l []

lemma mem_firstDedup {α : Type} [DecidableEq α] (a : α) (l : List α) :
    a ∈ firstDedup l ↔ a ∈ l := by
  rw [firstDedup, mem_firstDedupAux]
  simp

lemma hourDelays_nonempty_mem (evs : List EventRow) (h : ℤ) (sched : ℚ)
    (hne : hourDelays evs h sched ≠ []) : h ∈ hoursOf evs := by
  have hv : vehiclesInHour evs h ≠ [] := by
    intro hEq
    apply hne
    unfold hourDelays
    rw [hEq]
    rfl
  obtain ⟨vid, hvid⟩ : ∃ vid, vid ∈ vehiclesInHour evs h := by
    cases hveq : vehiclesInHour evs h with
    | nil => exact absurd hveq hv
    | cons x xs => exact ⟨x, hveq ▸ List.mem_cons_self x xs⟩
  unfold vehiclesInHour at hvid
  rw [mem_firstDedup] at hvid
  obtain ⟨e, he, -⟩ := List.mem_map.mp hvid
  rw [List.mem_filter] at he
  unfold hoursOf
  rw [mem_firstDedup]
  refine List.mem_map.mpr ⟨e, he.1, ?_⟩
  simpa using he.2

/-- Concrete telemetry events on route Red, 9 minutes apart within
hour of day 0, for the delay example. -/
def redEv1 : EventRow := ⟨"1877", some "Red", none, none, none, none, 0⟩

/-- Second concrete event, 540 seconds after the first. -/
def redEv2 : EventRow := ⟨"1877", some "Red", none, none, none, none, 540⟩

/-- Per-gap delay samples of one hour of a calculate_route_delays call,
written out from its queried, ordered window. -/
def delaysAt (events : List EventRow) (r : String) (hoursBack now h : ℤ) : List ℚ :=
  hourDelays (queryRouteEvents events r (now - hoursBack * 3600)) h (scheduledHeadwayFor r)

/-- C4: calculate_route_delays groups the route window by hour of day
and vehicle; unlisted routes get the default 10-minute headway; route
Red with headway 6 and a 9-minute gap yields the delay sample +3; each
hour with samples ends up with exactly one row holding the average and
count of its samples, overwriting any existing row for that route and
hour, and hours without samples leave the table rows for that key
unchanged. -/
theorem route_delay_hourly_aggregation :
    (∀ r : String, r ∉ SCHEDULED_HEADWAYS.map (fun p => p.1) → scheduledHeadwayFor r = 10)
    ∧ scheduledHeadwayFor "Red" = 6
    ∧ hourDelays [redEv1, redEv2] 0 (scheduledHeadwayFor "Red") = [3]
    ∧ ∀ (events : List EventRow) (table : List RouteDelayRow) (r : String)
        (hoursBack now h : ℤ),
        (delaysAt events r hoursBack now h = [] →
            rdRowsFor (calculate_route_delays events table r hoursBack now true).table r h
              = rdRowsFor table r h)
        ∧ (delaysAt events r hoursBack now h ≠ [] →
            (rdRowsFor table r h).length ≤ 1 →
            ∃ rn, rdRowsFor (calculate_route_delays events table r hoursBack now true).table r h
              = [⟨r, rn, h, (delaysAt events r hoursBack now h).sum
                    / (delaysAt events r hoursBack now h).length,
                  (delaysAt events r hoursBack now h).length, now⟩]) := by
  refine ⟨?_, rfl, ?_, ?_⟩
  · intro r hr
    unfold scheduledHeadwayFor
    rw [List.find?_eq_none.mpr ?_]
    · rfl
    · intro p hp
      simp only [decide_eq_true_eq]
      intro hEq
      exact hr (List.mem_map.mpr ⟨p, hp, hEq⟩)
  · norm_num [hourDelays, vehiclesInHour, vehicleHourEvents, gapsMinutes, hoursOf,
      firstDedup, firstDedupAux, hourOf, redEv1, redEv2, scheduledHeadwayFor,
      SCHEDULED_HEADWAYS, List.filter, List.flatMap]
  · intro events table r hoursBack now h
    constructor
    · intro hd
      cases hq : queryRouteEvents events r (now - hoursBack * 3600) with
      | nil => simp only [calculate_route_delays, hq]
      | cons e0 rest =>
          simp only [calculate_route_delays, hq, if_true]
          apply delayFold_rows_skip
          refine Or.inl ?_
          unfold delaysAt at hd
          rw [hq] at hd
          exact hd
    · intro hd hlen
      cases hqe : queryRouteEvents events r (now - hoursBack * 3600) with
      | nil =>
          exfalso
          apply hd
          unfold delaysAt
          rw [hqe]
          rfl
      | cons e0 rest =>
          have hds : delaysAt events r hoursBack now h
              = hourDelays (e0 :: rest) h (scheduledHeadwayFor r) := by
            unfold delaysAt
            rw [hqe]
          simp only [calculate_route_delays, hqe, if_true]
          rw [hds]
          apply delayFold_rows_at
          · exact firstDedup_nodup _
          · refine hourDelays_nonempty_mem (e0 :: rest) h (scheduledHeadwayFor r) ?_
            rw [← hds]
            exact hd
          · rw [← hds]
            exact hd
          · exact hlen

/-- Witness for C4 at the concrete Red window with one 9-minute gap. -/
theorem route_delay_hourly_aggregation_witness :
    ∃ rn, rdRowsFor (calculate_route_delays [redEv1, redEv2] [] "Red" 24 3000 true).table
        "Red" 0
      = [⟨"Red", rn, 0, (delaysAt [redEv1, redEv2] "Red" 24 3000 0).sum
            / (delaysAt [redEv1, redEv2] "Red" 24 3000 0).length,
          (delaysAt [redEv1, redEv2] "Red" 24 3000 0).length, 3000⟩] :=
  (route_delay_hourly_aggregation.2.2.2 [redEv1, redEv2] [] "Red" 24 3000 0).2
    (by decide) (by decide)

lemma bunchQuery_mem {vehicles : List VehicleRow} {r : String} {now : ℤ}
    {v : VehicleRow} (h : v ∈ bunchQuery vehicles r now) :
    v ∈ vehicles ∧ v.route_id = some r ∧ now - 5 * 60 ≤ v.last_updated
      ∧ v.latitude ≠ none ∧ v.longitude ≠ none := by
  unfold bunchQuery at h
  rw [(List.perm_insertionSort _ _).mem_iff, List.mem_filter] at h
  refine ⟨h.1, ?_⟩
  simpa using h.2

lemma bunchCond_split {v1 v2 : VehicleRow} (h : bunchCond v1 v2 = true) :
    truthyCoord v1.latitude = true ∧ truthyCoord v2.latitude = true
    ∧ truthyCoord v1.longitude = true ∧ truthyCoord v2.longitude = true
    ∧ 0 < v2.last_updated - v1.last_updated
    ∧ v2.last_updated - v1.last_updated < 180 := by
  unfold bunchCond at h
  simp only [Bool.and_eq_true, decide_eq_true_eq] at h
  exact ⟨h.1.1.1.1.1, h.1.1.1.1.2, h.1.1.1.2, h.1.1.2, h.1.2, h.2⟩

lemma detect_bunching_mem {vehicles : List VehicleRow} {r : String} {now : ℤ}
    {a : BunchAlert} (ha : a ∈ detect_bunching vehicles r now) :
    ∃ v1 v2 : VehicleRow, v1 ∈ vehicles ∧ v2 ∈ vehicles
      ∧ v1.route_id = some r ∧ v2.route_id = some r
      ∧ now - 5 * 60 ≤ v1.last_updated ∧ now - 5 * 60 ≤ v2.last_updated
      ∧ v1.latitude ≠ none ∧ v1.longitude ≠ none
      ∧ v2.latitude ≠ none ∧ v2.longitude ≠ none
      ∧ 0 < v2.last_updated - v1.last_updated
      ∧ v2.last_updated - v1.last_updated < 180
      ∧ a = mkBunchAlert r now v1 v2 := by
  unfold detect_bunching at ha
  obtain ⟨p, hp, hpa⟩ := List.mem_filterMap.mp ha
  obtain ⟨x, y⟩ := p
  have hzip := List.of_mem_zip hp
  have hx := bunchQuery_mem hzip.1
  have hy := bunchQuery_mem (List.tail_subset _ hzip.2)
  by_cases hc : bunchCond x y = true
  · rw [if_pos hc] at hpa
    obtain ⟨-, -, -, -, hgap1, hgap2⟩ := bunchCond_split hc
    exact ⟨x, y, hx.1, hy.1, hx.2.1, hy.2.1, hx.2.2.1, hy.2.2.1,
      hx.2.2.2.1, hx.2.2.2.2, hy.2.2.2.1, hy.2.2.2.2, hgap1, hgap2,
      (Option.some.injEq _ _).mp hpa |>.symm⟩
  · rw [if_neg hc] at hpa
    cases hpa

/-- Vehicle on route Red with recorded position, updated at 900. -/
def bv1 : VehicleRow := ⟨"veh1", some "Red", some "Red", some 42, some (-71), none, none, none, 900⟩

/-- Vehicle on route Red with recorded position, updated at 960. -/
def bv2 : VehicleRow := ⟨"veh2", some "Red", some "Red", some 42, some (-71), none, none, none, 960⟩

/-- Same pair updated 400 seconds apart: 590 and 990. -/
def bv3 : VehicleRow := ⟨"veh1", some "Red", some "Red", some 42, some (-71), none, none, none, 590⟩

/-- Second vehicle of the 400-second pair. -/
def bv4 : VehicleRow := ⟨"veh2", some "Red", some "Red", some 42, some (-71), none, none, none, 990⟩

/-- Vehicle on route Red inside the window but with a null latitude. -/
def bvNull : VehicleRow := ⟨"veh0", some "Red", some "Red", none, some (-71), none, none, none, 920⟩

/-- C8 counterexample: two vehicles on route Red updated 60 seconds
apart, both within the trailing 5-minute window, yet no bunching alert
is emitted because the first vehicle has no recorded latitude; the
claim as stated requires exactly one alert for this pair. -/
theorem bunching_null_position_counterexample :
    bvNull.route_id = some "Red" ∧ bv2.route_id = some "Red"
    ∧ 1000 - 5 * 60 ≤ bvNull.last_updated ∧ 1000 - 5 * 60 ≤ bv2.last_updated
    ∧ bv2.last_updated - bvNull.last_updated = 40
    ∧ (0 : ℤ) < 40 ∧ (40 : ℤ) < 180
    ∧ detect_bunching [bvNull, bv2] "Red" 1000 = [] := by
  decide

/-- C8 amended: among the route vehicles updated in the trailing 5
minutes that carry a non-null position, ordered by update time, every
adjacent pair with all coordinates nonzero and update gap strictly
between 0 and 180 seconds yields exactly one warning alert naming both
vehicle ids and the gap, and every emitted alert arises from such a
pair; two position-carrying vehicles 60 seconds apart yield exactly one
alert and the same pair 400 seconds apart yields none. -/
theorem bunching_adjacent_pairs :
    (∀ (vehicles : List VehicleRow) (r : String) (now : ℤ) (a : BunchAlert),
        a ∈ detect_bunching vehicles r now →
        ∃ v1 v2 : VehicleRow, v1 ∈ vehicles ∧ v2 ∈ vehicles
          ∧ v1.route_id = some r ∧ v2.route_id = some r
          ∧ now - 5 * 60 ≤ v1.last_updated ∧ now - 5 * 60 ≤ v2.last_updated
          ∧ v1.latitude ≠ none ∧ v1.longitude ≠ none
          ∧ v2.latitude ≠ none ∧ v2.longitude ≠ none
          ∧ 0 < v2.last_updated - v1.last_updated
          ∧ v2.last_updated - v1.last_updated < 180
          ∧ a = mkBunchAlert r now v1 v2)
    ∧ (∀ (vehicles : List VehicleRow) (r : String) (now : ℤ) (i : ℕ)
        (hi : i < (bunchQuery vehicles r now).length)
        (hi2 : i + 1 < (bunchQuery vehicles r now).length),
        bunchCond ((bunchQuery vehicles r now).get ⟨i, hi⟩)
            ((bunchQuery vehicles r now).get ⟨i + 1, hi2⟩) = true →
        mkBunchAlert r now ((bunchQuery vehicles r now).get ⟨i, hi⟩)
            ((bunchQuery vehicles r now).get ⟨i + 1, hi2⟩)
          ∈ detect_bunching vehicles r now)
    ∧ detect_bunching [bv1, bv2] "Red" 1000
        = [⟨"bunching", "Red", "veh1", "veh2", 60, "warning", 1000⟩]
    ∧ detect_bunching [bv3, bv4] "Red" 1000 = [] := by
  refine ⟨?_, ?_, by decide, by decide⟩
  · intro vehicles r now a ha
    exact detect_bunching_mem ha
  · intro vehicles r now i hi hi2 hc
    unfold detect_bunching
    apply List.mem_filterMap.mpr
    have hlen : i < ((bunchQuery vehicles r now).zip
        (bunchQuery vehicles r now).tail).length := by
      rw [List.length_zip, List.length_tail]
      omega
    refine ⟨((bunchQuery vehicles r now).get ⟨i, hi⟩,
      (bunchQuery vehicles r now).get ⟨i + 1, hi2⟩), ?_, ?_⟩
    · have hel : ((bunchQuery vehicles r now).zip (bunchQuery vehicles r now).tail)[i]
          = ((bunchQuery vehicles r now).get ⟨i, hi⟩,
            (bunchQuery vehicles r now).get ⟨i + 1, hi2⟩) := by
        rw [List.getElem_zip, List.getElem_tail]
        simp [List.get_eq_getElem]
      rw [← hel]
      exact List.getElem_mem hlen
    · rw [if_pos hc]

/-- Witness for the amended C8 soundness part at the concrete
60-second pair. -/
theorem bunching_adjacent_pairs_witness :
    ∃ v1 v2 : VehicleRow, v1 ∈ [bv1, bv2] ∧ v2 ∈ [bv1, bv2]
      ∧ v1.route_id = some "Red" ∧ v2.route_id = some "Red"
      ∧ 1000 - 5 * 60 ≤ v1.last_updated ∧ 1000 - 5 * 60 ≤ v2.last_updated
      ∧ v1.latitude ≠ none ∧ v1.longitude ≠ none
      ∧ v2.latitude ≠ none ∧ v2.longitude ≠ none
      ∧ 0 < v2.last_updated - v1.last_updated
      ∧ v2.last_updated - v1.last_updated < 180
      ∧ (⟨"bunching", "Red", "veh1", "veh2", 60, "warning", 1000⟩ : BunchAlert)
          = mkBunchAlert "Red" 1000 v1 v2 :=
  bunching_adjacent_pairs.1 [bv1, bv2] "Red" 1000
    ⟨"bunching", "Red", "veh1", "veh2", 60, "warning", 1000⟩ (by decide)

/-- C10: the bunching detector only considers vehicles with non-null
latitude and longitude: in a store with unique vehicle ids, no emitted
alert names a vehicle lacking a recorded position. -/
theorem bunching_requires_position :
    ∀ (vehicles : List VehicleRow) (r : String) (now : ℤ) (v : VehicleRow)
      (a : BunchAlert),
      (vehicles.map (fun w => w.vehicle_id)).Nodup →
      v ∈ vehicles → (v.latitude = none ∨ v.longitude = none) →
      a ∈ detect_bunching vehicles r now →
      a.vehicle_1 ≠ v.vehicle_id ∧ a.vehicle_2 ≠ v.vehicle_id := by
  intro vehicles r now v a hnd hv hnull ha
  obtain ⟨v1, v2, hm1, hm2, -, -, -, -, hlat1, hlon1, hlat2, hlon2, -, -, rfl⟩ :=
    detect_bunching_mem ha
  constructor
  · intro hEq
    have hv1 : v1 = v := List.inj_on_of_nodup_map hnd hm1 hv hEq
    rcases hnull with hn | hn
    · refine hlat1 ?_
      rw [hv1]
      exact hn
    · refine hlon1 ?_
      rw [hv1]
      exact hn
  · intro hEq
    have hv2 : v2 = v := List.inj_on_of_nodup_map hnd hm2 hv hEq
    rcases hnull with hn | hn
    · refine hlat2 ?_
      rw [hv2]
      exact hn
    · refine hlon2 ?_
      rw [hv2]
      exact hn

/-- Witness for C10 at a store holding a position-less vehicle beside
an alerting pair. -/
theorem bunching_requires_position_witness :
    (⟨"bunching", "Red", "veh1", "veh2", 60, "warning", 1000⟩ : BunchAlert).vehicle_1
        ≠ bvNull.vehicle_id
    ∧ (⟨"bunching", "Red", "veh1", "veh2", 60, "warning", 1000⟩ : BunchAlert).vehicle_2
        ≠ bvNull.vehicle_id :=
  bunching_requires_position [bvNull, bv1, bv2] "Red" 1000 bvNull
    ⟨"bunching", "Red", "veh1", "veh2", 60, "warning", 1000⟩
    (by decide) (by decide) (by decide) (by decide)

/-- Gaps emitted by the headway walker from a run state: one gap per
event whose vehicle equals the vehicle of the preceding event. -/
def gapsFrom (prev : String) (pts : ℤ) : List EventRow → List ℚ
  | [] => []
  | e :: rest =>
      if e.vehicle_id = prev
      then (((e.timestamp - pts : ℤ) : ℚ) / 60) :: gapsFrom e.vehicle_id e.timestamp rest
      else gapsFrom e.vehicle_id e.timestamp rest

/-- Vehicle of the last event of the stream, seeded with prev. -/
def lastVid (prev : String) : List EventRow → String
  | [] => prev
  | e :: rest => lastVid e.vehicle_id rest

/-- Timestamp of the last event of the stream, seeded with pts. -/
def lastTsOf (pts : ℤ) : List EventRow → ℤ
  | [] => pts
  | e :: rest => lastTsOf e.timestamp rest

lemma lastVid_cons (p : String) (e : EventRow) (rest : List EventRow) :
    lastVid p (e :: rest) = lastVid e.vehicle_id rest := rfl

lemma lastTsOf_cons (p : ℤ) (e : EventRow) (rest : List EventRow) :
    lastTsOf p (e :: rest) = lastTsOf e.timestamp rest := rfl

lemma gapsFrom_cons (prev : String) (pts : ℤ) (e : EventRow) (rest : List EventRow) :
    gapsFrom prev pts (e :: rest)
      = if e.vehicle_id = prev
        then (((e.timestamp - pts : ℤ) : ℚ) / 60) :: gapsFrom e.vehicle_id e.timestamp rest
        else gapsFrom e.vehicle_id e.timestamp rest := rfl

lemma hwStep_run (r : String) (prev : String) (pts : ℤ) (gaps : List ℚ)
    (e : EventRow) (he : e.route_id = some r) :
    hwStep ⟨some r, some prev, some pts, [(some r, gaps)], false⟩ e
      = ⟨some r, some e.vehicle_id, some e.timestamp,
          [(some r, gaps ++ (if e.vehicle_id = prev
              then [((e.timestamp - pts : ℤ) : ℚ) / 60] else []))], false⟩ := by
  unfold hwStep
  simp only [Bool.false_eq_true, if_false, he, ne_eq, not_true_eq_false]
  by_cases hv : e.vehicle_id = prev
  · simp [hv, accHasKey, accAppend]
  · simp [hv, Option.some.injEq]

lemma hwWalk_go (r : String) :
    ∀ (rest : List EventRow) (prev : String) (pts : ℤ) (gaps : List ℚ),
      (∀ e ∈ rest, e.route_id = some r) →
      List.foldl hwStep ⟨some r, some prev, some pts, [(some r, gaps)], false⟩ rest
        = ⟨some r, some (lastVid prev rest), some (lastTsOf pts rest),
            [(some r, gaps ++ gapsFrom prev pts rest)], false⟩ := by
  intro rest
  induction rest with
  | nil =>
      intro prev pts gaps _
      simp [lastVid, lastTsOf, gapsFrom]
  | cons e rest ih =>
      intro prev pts gaps hall
      rw [List.foldl_cons]
      rw [hwStep_run r prev pts gaps e (hall e (List.mem_cons_self e rest))]
      rw [ih e.vehicle_id e.timestamp _ (fun f hf => hall f (List.mem_cons_of_mem e hf))]
      rw [lastVid_cons, lastTsOf_cons, gapsFrom_cons]
      by_cases hv : e.vehicle_id = prev
      · rw [if_pos hv, if_pos hv]
        simp
      · rw [if_neg hv, if_neg hv]
        simp

lemma gapsFrom_eq_consecGaps :
    ∀ (rest : List EventRow) (e : EventRow),
      gapsFrom e.vehicle_id e.timestamp rest = consecGaps (e :: rest) := by
  intro rest
  induction rest with
  | nil => intro e; rfl
  | cons f rest ih =>
      intro e
      rw [gapsFrom_cons]
      have hcg : consecGaps (e :: f :: rest)
          = if f.vehicle_id = e.vehicle_id
            then (((f.timestamp - e.timestamp : ℤ) : ℚ) / 60) :: consecGaps (f :: rest)
            else consecGaps (f :: rest) := by
        unfold consecGaps
        rw [show (e :: f :: rest).tail = f :: rest from rfl,
          List.zip_cons_cons, List.filterMap_cons]
        by_cases hv : f.vehicle_id = e.vehicle_id
        · rw [if_pos hv]
          simp [hv]
        · rw [if_neg hv]
          simp [hv]
      rw [hcg]
      by_cases hv : f.vehicle_id = e.vehicle_id
      · rw [if_pos hv, if_pos hv, ih f]
      · rw [if_neg hv, if_neg hv, ih f]

/-- Events of one vehicle on route Red at minutes 0, 3, 3.5 and 20. -/
def hw1 : EventRow := ⟨"v", some "Red", none, none, none, none, 0⟩

/-- Second event of the example stream, at minute 3. -/
def hw2 : EventRow := ⟨"v", some "Red", none, none, none, none, 180⟩

/-- Third event of the example stream, at minute 3.5. -/
def hw3 : EventRow := ⟨"v", some "Red", none, none, none, none, 210⟩

/-- Fourth event of the example stream, at minute 20. -/
def hw4 : EventRow := ⟨"v", some "Red", none, none, none, none, 1200⟩

/-- Interleaved events: vehicle A at 0, vehicle B at 60, A at 300. -/
def hwA0 : EventRow := ⟨"A", some "Red", none, none, none, none, 0⟩

/-- Event of vehicle B between the two A events. -/
def hwB1 : EventRow := ⟨"B", some "Red", none, none, none, none, 60⟩

/-- Second event of vehicle A, 300 seconds after its first. -/
def hwA5 : EventRow := ⟨"A", some "Red", none, none, none, none, 300⟩

/-- C7 counterexample: with interleaved vehicles A, B, A on one route
the walker emits no headway at all, although vehicle A has two events
5 minutes apart; per-vehicle tracking as claimed would emit 5. -/
theorem headway_per_vehicle_counterexample :
    analyzeHeadways [hwA0, hwB1, hwA5] = some [(some "Red", [])]
    ∧ (((hwA5.timestamp - hwA0.timestamp : ℤ) : ℚ) / 60 = 5)
    ∧ (5 : ℚ) ∉ ([] : List ℚ) := by
  refine ⟨by decide, by norm_num [hwA5, hwA0], by simp⟩

/-- C7 amended: within a route the walker only compares each event to
the immediately preceding event of the stream: an event whose vehicle
differs from the previous event emits nothing and re-seeds, an event
with the same vehicle as the previous event emits the gap in minutes;
the single-vehicle stream at minutes 0, 3, 3.5, 20 yields emitted
headways 3, 0.5 and 16.5. -/
theorem headway_consecutive_same_vehicle :
    (∀ (r : String) (e0 : EventRow) (rest : List EventRow),
        (∀ e ∈ e0 :: rest, e.route_id = some r) →
        analyzeHeadways (e0 :: rest) = some [(some r, consecGaps (e0 :: rest))])
    ∧ analyzeHeadways [hw1, hw2, hw3, hw4] = some [(some "Red", [3, 0.5, 16.5])] := by
  have hmain : ∀ (r : String) (e0 : EventRow) (rest : List EventRow),
      (∀ e ∈ e0 :: rest, e.route_id = some r) →
      analyzeHeadways (e0 :: rest) = some [(some r, consecGaps (e0 :: rest))] := by
    intro r e0 rest hall
    have h0 : e0.route_id = some r := hall e0 (List.mem_cons_self e0 rest)
    unfold analyzeHeadways hwWalk
    rw [List.foldl_cons]
    have hinit : hwStep ⟨none, none, none, [], false⟩ e0
        = ⟨some r, some e0.vehicle_id, some e0.timestamp, [(some r, [])], false⟩ := by
      unfold hwStep
      simp [h0, accHasKey]
    rw [hinit]
    rw [hwWalk_go r rest e0.vehicle_id e0.timestamp []
      (fun e he => hall e (List.mem_cons_of_mem e0 he))]
    rw [gapsFrom_eq_consecGaps rest e0]
    simp
  refine ⟨hmain, ?_⟩
  rw [hmain "Red" hw1 [hw2, hw3, hw4] (by decide)]
  norm_num [consecGaps, hw1, hw2, hw3, hw4, List.zip, List.filterMap]

/-- Witness for the amended C7 at the single-vehicle example stream. -/
theorem headway_consecutive_same_vehicle_witness :
    analyzeHeadways [hw1, hw2, hw3, hw4]
      = some [(some "Red", consecGaps [hw1, hw2, hw3, hw4])] :=
  headway_consecutive_same_vehicle.1 "Red" hw1 [hw2, hw3, hw4] (by decide)

end Transit
